import Mathlib

/-!
Verification of the conversion/restoration engine and the security-group
reconciler of cluster-api-provider-openstack.

Sources embedded from `api/v1alpha7/openstackmachine_conversion.go` and the
`names` package. Go byte strings are modelled as `List Char` (`GoStr`), Go
maps as association lists with unique keys iterated in list order, Go `nil`
pointers as `Option.none`, and zero values as `""`/`0`. Components whose
implementation is not part of the provided sources (the generic
ConvertAndRestore/HashedFieldRestorer machinery and the networking service
functions, for which only tests and callers are provided) are modelled from
the specification; each such definition is marked `Modelled from the spec`.
-/

set_option maxRecDepth 20000

/-- Go byte string (`string`); `len` is `List.length`, `s[:n]` is `List.take n`. -/
abbrev GoStr := List Char

/-- Go `map[string]string` modelled as an association list with unique keys,
iterated in list order. -/
abbrev MetaMap := List (GoStr × GoStr)

/-- Lookup in the association-list model of a Go map. -/
def metaLookup (m : MetaMap) (k : GoStr) : Option GoStr :=
  match m with
  | [] => none
  | (k2, v) :: t => if k2 = k then some v else metaLookup t k

/-- Go `delete(m, k)`: removes the entry for `k` (unique by invariant). -/
def metaErase (m : MetaMap) (k : GoStr) : MetaMap :=
  match m with
  | [] => []
  | (k2, v) :: t => if k2 = k then t else (k2, v) :: metaErase t k

/-- Go `m[k] = v`: replace in place when present, append otherwise. -/
def metaInsert (m : MetaMap) (k : GoStr) (v : GoStr) : MetaMap :=
  match m with
  | [] => [(k, v)]
  | (k2, v2) :: t => if k2 = k then (k, v) :: t else (k2, v2) :: metaInsert t k v

/-- Build the Go map produced by inserting each list entry in order
(later duplicate keys overwrite earlier ones), as in
`Convert_v1beta1_OpenStackMachineSpec_To_v1alpha7_OpenStackMachineSpec`. -/
def metaFromList (l : List (GoStr × GoStr)) : MetaMap :=
  l.foldl (fun acc e => metaInsert acc e.1 e.2) []

/-- Truncation to 255 bytes used by the v1alpha7→v1beta1 spec conversion:
`if len(s) > 255 { s = s[:255] }`. -/
def truncate255 (s : GoStr) : GoStr :=
  if s.length > 255 then s.take 255 else s

/- ## Data model

The machine spec schemas. Only the fields handled by the conversion code in
`openstackmachine_conversion.go` are modelled; the remaining fields copied
verbatim by the generated `autoConvert` functions (not part of the provided
sources) are represented by `flavor`. -/

/-- v1alpha7 `OpenStackIdentityReference` (has a `Kind`, no `CloudName`). -/
structure IdentityRefA7 where
  kind : GoStr
  name : GoStr
deriving DecidableEq

/-- v1beta1 `OpenStackIdentityReference` (has a `CloudName`, no `Kind`). -/
structure IdentityRefB1 where
  cloudName : GoStr
  name : GoStr
deriving DecidableEq

/-- v1beta1 `ServerGroupFilter` (structured ID/Name selector). -/
structure ServerGroupFilter where
  id : GoStr
  name : GoStr
deriving DecidableEq

/-- v1beta1 `ImageFilter` (structured ID/Name selector; in v1beta1 it is not
possible to set both). -/
structure ImageFilter where
  id : Option GoStr
  name : Option GoStr
deriving DecidableEq

/-- Modelled from the spec: v1alpha7 port sub-object. The port conversion
functions are not part of the provided sources; the model keeps one field
copied across versions (`name`) and one field unique to v1alpha7 (`hostID`),
restored by `restorev1alpha7Port`. -/
structure PortA7 where
  name : GoStr
  hostID : GoStr
deriving DecidableEq

/-- Modelled from the spec: v1beta1 port sub-object, with one field copied
across versions (`name`) and one field unique to v1beta1 (`profile`),
restored by `restorev1beta1Port`. -/
structure PortB1 where
  name : GoStr
  profile : GoStr
deriving DecidableEq

/-- Modelled from the spec: v1alpha7 security group filter, with a field
unique to v1alpha7 (`legacy`) restored by
`restorev1alpha7SecurityGroupFilter`. -/
structure SecurityGroupFilterA7 where
  name : GoStr
  legacy : GoStr
deriving DecidableEq

/-- v1beta1 security group filter (no v1alpha7-only fields). -/
structure SecurityGroupFilterB1 where
  name : GoStr
deriving DecidableEq

/-- v1alpha7 `OpenStackMachineSpec` (fields handled by the conversion code). -/
structure OpenStackMachineSpecA7 where
  flavor : GoStr
  image : GoStr
  imageUUID : GoStr
  floatingIP : GoStr
  serverGroupID : GoStr
  serverMetadata : MetaMap
  cloudName : GoStr
  identityRef : Option IdentityRefA7
  ports : List PortA7
  securityGroups : List SecurityGroupFilterA7
deriving DecidableEq

/-- v1beta1 `OpenStackMachineSpec` (fields handled by the conversion code).
`serverMetadata` is the normalized ordered list of key/value records. -/
structure OpenStackMachineSpecB1 where
  flavor : GoStr
  image : ImageFilter
  serverGroup : Option ServerGroupFilter
  serverMetadata : List (GoStr × GoStr)
  identityRef : Option IdentityRefB1
  floatingIPPoolRef : Option GoStr
  ports : List PortB1
  securityGroups : List SecurityGroupFilterB1
deriving DecidableEq

/- ## Spec conversion (from the source) -/

/-- Modelled from the spec: the generated per-port conversion used by
`autoConvert` copies the fields present in both versions and zeroes the
rest. -/
def convertPortA7ToB1 (p : PortA7) : PortB1 :=
  { name := p.name, profile := [] }

/-- Modelled from the spec: generated per-port conversion, v1beta1→v1alpha7. -/
def convertPortB1ToA7 (p : PortB1) : PortA7 :=
  { name := p.name, hostID := [] }

/-- `Convert_v1alpha7_OpenStackMachineSpec_To_v1beta1_OpenStackMachineSpec`.
The `autoConvert` part (not in the provided sources) copies `flavor`, `ports`
and `securityGroups`; the explicit part follows the source line by line. -/
def Convert_v1alpha7_OpenStackMachineSpec_To_v1beta1_OpenStackMachineSpec
    (a : OpenStackMachineSpecA7) : OpenStackMachineSpecB1 :=
  { flavor := a.flavor
    ports := a.ports.map convertPortA7ToB1
    securityGroups := a.securityGroups.map (fun g => { name := g.name })
    serverGroup :=
      if a.serverGroupID ≠ [] then some { id := a.serverGroupID, name := [] } else none
    image :=
      if a.imageUUID ≠ [] then { id := some a.imageUUID, name := none }
      else if a.image ≠ [] then { id := none, name := some a.image }
      else { id := none, name := none }
    serverMetadata :=
      if a.serverMetadata.isEmpty then []
      else a.serverMetadata.map (fun e => (truncate255 e.1, truncate255 e.2))
    identityRef :=
      let base := a.identityRef.map
        (fun r => ({ cloudName := [], name := r.name } : IdentityRefB1))
      if a.cloudName ≠ [] then
        match base with
        | some r => some { r with cloudName := a.cloudName }
        | none => some { cloudName := a.cloudName, name := [] }
      else base
    floatingIPPoolRef := none }

/-- `Convert_v1beta1_OpenStackMachineSpec_To_v1alpha7_OpenStackMachineSpec`,
following the source line by line; the `autoConvert` part copies `flavor`,
`ports` and `securityGroups` and leaves fields without a counterpart at their
zero value. -/
def Convert_v1beta1_OpenStackMachineSpec_To_v1alpha7_OpenStackMachineSpec
    (b : OpenStackMachineSpecB1) : OpenStackMachineSpecA7 :=
  { flavor := b.flavor
    ports := b.ports.map convertPortB1ToA7
    securityGroups := b.securityGroups.map (fun g => { name := g.name, legacy := [] })
    serverGroupID :=
      match b.serverGroup with
      | some g => g.id
      | none => []
    image :=
      match b.image.name with
      | some n => if n ≠ [] then n else []
      | none => []
    imageUUID :=
      match b.image.id with
      | some i => if i ≠ [] then i else []
      | none => []
    serverMetadata :=
      if b.serverMetadata.isEmpty then [] else metaFromList b.serverMetadata
    cloudName :=
      match b.identityRef with
      | some r => r.cloudName
      | none => []
    identityRef := b.identityRef.map
      (fun r => ({ kind := [], name := r.name } : IdentityRefA7))
    floatingIP := [] }

/- ## Restore functions (from the source) -/

/-- Modelled from the spec: `restorev1alpha7Port` copies the
v1alpha7-only port field forward. -/
def restorev1alpha7Port (previous dst : PortA7) : PortA7 :=
  { dst with hostID := previous.hostID }

/-- Modelled from the spec: `restorev1beta1Port` copies the v1beta1-only port
field forward. -/
def restorev1beta1Port (previous dst : PortB1) : PortB1 :=
  { dst with profile := previous.profile }

/-- Modelled from the spec: `restorev1alpha7SecurityGroupFilter` copies the
v1alpha7-only filter field forward. -/
def restorev1alpha7SecurityGroupFilter (previous dst : SecurityGroupFilterA7) :
    SecurityGroupFilterA7 :=
  { dst with legacy := previous.legacy }

/-- One iteration of the `ServerMetadata` restore loop of
`restorev1alpha7MachineSpec`: truncate the previous key and value; when
either changed, delete the truncated key and write back the original pair. -/
def restoreMetadataStep (acc : MetaMap) (e : GoStr × GoStr) : MetaMap :=
  let kd := truncate255 e.1
  let vd := truncate255 e.2
  if kd ≠ e.1 ∨ vd ≠ e.2 then metaInsert (metaErase acc kd) e.1 e.2 else acc

/-- The `for k, v := range previous.ServerMetadata` loop of
`restorev1alpha7MachineSpec` (map iteration modelled in list order). -/
def restoreMetadata (previous dstm : MetaMap) : MetaMap :=
  previous.foldl restoreMetadataStep dstm

/-- `restorev1alpha7MachineSpec`, line by line from the source. -/
def restorev1alpha7MachineSpec (previous dst : OpenStackMachineSpecA7) :
    OpenStackMachineSpecA7 :=
  { dst with
    floatingIP := previous.floatingIP
    serverMetadata := restoreMetadata previous.serverMetadata dst.serverMetadata
    identityRef := previous.identityRef
    ports :=
      if dst.ports.length = previous.ports.length then
        List.zipWith restorev1alpha7Port previous.ports dst.ports
      else dst.ports
    securityGroups :=
      if dst.securityGroups.length = previous.securityGroups.length then
        List.zipWith restorev1alpha7SecurityGroupFilter previous.securityGroups
          dst.securityGroups
      else dst.securityGroups
    image :=
      if dst.image = [] ∧ previous.image ≠ [] then previous.image else dst.image }

/-- `restorev1beta1MachineSpec`, line by line from the source. -/
def restorev1beta1MachineSpec (previous dst : OpenStackMachineSpecB1) :
    OpenStackMachineSpecB1 :=
  { dst with
    serverGroup := previous.serverGroup
    image := previous.image
    ports :=
      if dst.ports.length = previous.ports.length then
        List.zipWith restorev1beta1Port previous.ports dst.ports
      else dst.ports
    floatingIPPoolRef := previous.floatingIPPoolRef }

/- ## Machine objects and the hashed restore machinery

`ConvertAndRestore`, `RestorerFor`, `HashedFieldRestorer` and
`UnconditionalFieldRestorer` live in `pkg/utils/conversion`, which is not part
of the provided sources; only the restorer tables
(`v1alpha7OpenStackMachineRestorer`, `v1beta1OpenStackMachineRestorer`) and
the conversion entry points (`ConvertTo`, `ConvertFrom`) are. The machinery
is therefore modelled from the spec. -/

/-- v1beta1 `OpenStackMachine`: spec plus the status sub-objects restored
unconditionally by `v1beta1OpenStackMachineRestorer`
(`Status.DependentResources` and `Status.ReferencedResources`, modelled
opaquely, since they have no equivalent in v1alpha7). -/
structure OpenStackMachineB1 where
  spec : OpenStackMachineSpecB1
  dependentResources : GoStr
  referencedResources : GoStr
deriving DecidableEq

/-- v1alpha7 `OpenStackMachine` (the restorer table for it covers only the
spec field group). -/
structure OpenStackMachineA7 where
  spec : OpenStackMachineSpecA7
deriving DecidableEq

/-- Modelled from the spec: the restore record written beside the
lower-fidelity object when a v1beta1 machine is converted down to v1alpha7.
It carries the previous higher-fidelity object and the hash of the
lower-fidelity form of the guarded field group ("spec"); the hash is
modelled as the hashed value itself (an injective hash). -/
structure RestoreRecordB1 where
  previous : OpenStackMachineB1
  specHash : OpenStackMachineSpecA7
deriving DecidableEq

/-- Modelled from the spec: the restore record written beside the
lower-fidelity object when a v1alpha7 machine is converted to v1beta1
(whose `ServerMetadata` schema is lower-fidelity: it truncates keys and
values to 255 characters). -/
structure RestoreRecordA7 where
  previous : OpenStackMachineA7
  specHash : OpenStackMachineSpecB1
deriving DecidableEq

/-- Modelled from the spec: `ConvertFrom` on a v1alpha7 machine — convert the
v1beta1 machine down and store the restore record (previous object plus the
hash of the converted spec) beside the result. -/
def convertDownB1 (m : OpenStackMachineB1) : OpenStackMachineA7 × RestoreRecordB1 :=
  let a : OpenStackMachineA7 :=
    { spec := Convert_v1beta1_OpenStackMachineSpec_To_v1alpha7_OpenStackMachineSpec m.spec }
  (a, { previous := m, specHash := a.spec })

/-- Modelled from the spec: `ConvertTo` on a v1alpha7 machine — convert up to
v1beta1, then apply `v1beta1OpenStackMachineRestorer`: the hashed "spec"
restorer fires only when the current lower-fidelity spec still hashes to the
stored hash (i.e. it is exactly what conversion would have produced from the
previous object); the unconditional restorers always copy the status
sub-objects forward. With no restore record the conversion alone runs. -/
def convertUpA7 (m : OpenStackMachineA7) (rec : Option RestoreRecordB1) :
    OpenStackMachineB1 :=
  let dst : OpenStackMachineB1 :=
    { spec := Convert_v1alpha7_OpenStackMachineSpec_To_v1beta1_OpenStackMachineSpec m.spec
      dependentResources := []
      referencedResources := [] }
  match rec with
  | none => dst
  | some r =>
    { spec :=
        if m.spec = r.specHash then
          restorev1beta1MachineSpec r.previous.spec dst.spec
        else dst.spec
      dependentResources := r.previous.dependentResources
      referencedResources := r.previous.referencedResources }

/-- Modelled from the spec: `ConvertTo` seen from the v1alpha7 side — convert
the v1alpha7 machine to v1beta1 and store the restore record beside the
result. -/
def convertUpStoreA7 (m : OpenStackMachineA7) : OpenStackMachineB1 × RestoreRecordA7 :=
  let b : OpenStackMachineB1 :=
    { spec := Convert_v1alpha7_OpenStackMachineSpec_To_v1beta1_OpenStackMachineSpec m.spec
      dependentResources := []
      referencedResources := [] }
  (b, { previous := m, specHash := b.spec })

/-- Modelled from the spec: `ConvertFrom` applying
`v1alpha7OpenStackMachineRestorer` — convert down to v1alpha7, then restore
the "spec" field group from the previous v1alpha7 object, but only when the
current v1beta1 spec still hashes to the stored hash. -/
def convertDownRestoreB1 (m : OpenStackMachineB1) (rec : Option RestoreRecordA7) :
    OpenStackMachineA7 :=
  let dst : OpenStackMachineA7 :=
    { spec := Convert_v1beta1_OpenStackMachineSpec_To_v1alpha7_OpenStackMachineSpec m.spec }
  match rec with
  | none => dst
  | some r =>
    if m.spec = r.specHash then
      { spec := restorev1alpha7MachineSpec r.previous.spec dst.spec }
    else dst

/-- The downgrade-then-upgrade round trip of a v1beta1 machine with an
unmodified v1alpha7 intermediate. -/
def roundTripB1 (m : OpenStackMachineB1) : OpenStackMachineB1 :=
  let (a, rec) := convertDownB1 m
  convertUpA7 a (some rec)

/-- The v1alpha7 → v1beta1 → v1alpha7 round trip with an unmodified v1beta1
intermediate (the direction in which `ServerMetadata` keys and values are
truncated and then restored). -/
def roundTripA7 (m : OpenStackMachineA7) : OpenStackMachineA7 :=
  let (b, rec) := convertUpStoreA7 m
  convertDownRestoreB1 b (some rec)

/- ## The names package (from the source) -/

/-- `FloatingAddressIPClaimNameSuffix` from the `names` package. -/
def FloatingAddressIPClaimNameSuffix : GoStr := "floating-ip-address".data

/-- `GetFloatingAddressClaimName`: `fmt.Sprintf("%s-%s", name, suffix)`. -/
def GetFloatingAddressClaimName (openStackMachineName : GoStr) : GoStr :=
  openStackMachineName ++ '-' :: FloatingAddressIPClaimNameSuffix

/-- Go `strings.TrimSuffix`: drop the suffix when present, otherwise return
the string unchanged. -/
def trimSuffix (s sfx : GoStr) : GoStr :=
  if sfx <:+ s then s.take (s.length - sfx.length) else s

/-- `GetOpenStackMachineNameFromClaimName`:
`strings.TrimSuffix(claimName, "-" + suffix)`. -/
def GetOpenStackMachineNameFromClaimName (claimName : GoStr) : GoStr :=
  trimSuffix claimName ('-' :: FloatingAddressIPClaimNameSuffix)

/- ## Security groups: resolver, desired-state builder, reconciler

The implementations (`validateRemoteManagedGroups`, `getAllNodesRules`,
`generateDesiredSecGroups`, `reconcileGroupRules` in the networking service)
are not part of the provided sources; only their tests are. They are
modelled from the spec, with the Go `map[string]string` of known groups as an
association list looked up by key. -/

/-- The live name→remote-ID mapping of managed security groups. -/
abbrev GroupsMap := List (String × String)

/-- Key lookup in the name→ID mapping. -/
def lookupGroup (m : GroupsMap) (k : String) : Option String :=
  match m with
  | [] => none
  | (k2, v) :: t => if k2 = k then some v else lookupGroup t k

/-- v1beta1 `SecurityGroupRuleSpec` (user-authored rule; pointer fields
modelled by their zero-defaulted values, as compared by the reconciler). -/
structure SecurityGroupRuleSpec where
  description : String
  direction : String
  etherType : String
  protocol : String
  portRangeMin : Int
  portRangeMax : Int
  remoteManagedGroups : List String
deriving DecidableEq

/-- `resolvedSecurityGroupRuleSpec`: a rule after symbolic group names are
expanded to remote IDs. (`remoteIPPref` models the source field
`RemoteIPPrefix`.) -/
structure ResolvedSecurityGroupRuleSpec where
  description : String
  direction : String
  etherType : String
  protocol : String
  portRangeMin : Int
  portRangeMax : Int
  remoteGroupID : String
  remoteIPPref : String
deriving DecidableEq

/-- Expansion of one rule for one resolved remote group ID: every other
field is copied verbatim. -/
def resolveRule (r : SecurityGroupRuleSpec) (gid : String) :
    ResolvedSecurityGroupRuleSpec :=
  { description := r.description
    direction := r.direction
    etherType := r.etherType
    protocol := r.protocol
    portRangeMin := r.portRangeMin
    portRangeMax := r.portRangeMax
    remoteGroupID := gid
    remoteIPPref := "" }

/-- Modelled from the spec: `validateRemoteManagedGroups` — every requested
name must exist in the known mapping (an unknown name fails, surfacing the
offending name), and the optional role "bastion", when present in the known
mapping, must be referenced (its absence from the mapping lets rules simply
omit it). The error value is the offending name. -/
def validateRemoteManagedGroups (known : GroupsMap) (requested : List String) :
    Except String Unit :=
  match requested.find? (fun n => (lookupGroup known n).isNone) with
  | some n => .error n
  | none =>
    if (lookupGroup known "bastion").isSome ∧ "bastion" ∉ requested then
      .error "bastion"
    else .ok ()

/-- The first requested name across all rules that is absent from the known
mapping, if any. -/
def firstUnknownGroup (known : GroupsMap) (rules : List SecurityGroupRuleSpec) :
    Option String :=
  (rules.flatMap (fun r => r.remoteManagedGroups)).find?
    (fun n => (lookupGroup known n).isNone)

/-- Whether some rule of the all-nodes rule set references "bastion". -/
def bastionWired (rules : List SecurityGroupRuleSpec) : Bool :=
  rules.any (fun r => "bastion" ∈ r.remoteManagedGroups)

/-- Modelled from the spec: `getAllNodesRules` — resolve each rule of the
shared all-nodes rule set against the known mapping. An unknown requested
name fails immediately with that name; the optional role "bastion", when
present in the known mapping, must be referenced by at least one rule of the
set. On success each rule fans out to one resolved rule per matched name, in
request-list order, all other fields copied verbatim. -/
def getAllNodesRules (known : GroupsMap) (rules : List SecurityGroupRuleSpec) :
    Except String (List ResolvedSecurityGroupRuleSpec) :=
  match firstUnknownGroup known rules with
  | some n => .error n
  | none =>
    if (lookupGroup known "bastion").isSome ∧ ¬bastionWired rules then
      .error "bastion"
    else
      .ok (rules.flatMap (fun r =>
        r.remoteManagedGroups.map (fun n =>
          resolveRule r ((lookupGroup known n).getD ""))))

/-- `securityGroupSpec`: a desired security group, a name plus an ordered
list of resolved rules. -/
structure SecurityGroupSpecD where
  name : String
  rules : List ResolvedSecurityGroupRuleSpec
deriving DecidableEq

/-- v1beta1 `ManagedSecurityGroups` (the part the desired-state builder
reads). -/
structure ManagedSecurityGroups where
  allNodesSecurityGroupRules : List SecurityGroupRuleSpec
deriving DecidableEq

/-- The cluster spec of the target as consumed by the desired-state builder:
`nil` managed security groups means they are unmanaged. -/
structure OpenStackClusterSpecModel where
  managedSecurityGroups : Option ManagedSecurityGroups
deriving DecidableEq

/-- Modelled from the spec: `generateDesiredSecGroups` — when managed
security groups are disabled for the target, return an empty result with no
error; otherwise seed each managed role group with its baseline rules
(policy supplied by an external collaborator, here the `baseline` argument)
and append the expanded all-nodes rules to every group; any resolution
failure aborts the whole build. -/
def generateDesiredSecGroups
    (baseline : List (String × List ResolvedSecurityGroupRuleSpec))
    (cluster : OpenStackClusterSpecModel) (known : GroupsMap) :
    Except String (List SecurityGroupSpecD) :=
  match cluster.managedSecurityGroups with
  | none => .ok []
  | some msg =>
    match getAllNodesRules known msg.allNodesSecurityGroupRules with
    | .error e => .error e
    | .ok allRules =>
      .ok (baseline.map (fun b => { name := b.1, rules := b.2 ++ allRules }))

/-- v1beta1 `SecurityGroupRuleStatus`: the comparable rule fields plus the
server-assigned rule id. -/
structure SecurityGroupRuleStatus where
  description : String
  direction : String
  etherType : String
  protocol : String
  portRangeMin : Int
  portRangeMax : Int
  remoteGroupID : String
  remoteIPPref : String
  id : String
deriving DecidableEq

/-- v1beta1 `SecurityGroupStatus`: server-assigned group id/name plus the
observed rule records. -/
structure SecurityGroupStatus where
  id : String
  name : String
  rules : List SecurityGroupRuleStatus
deriving DecidableEq

/-- Value equality on the comparable fields (description, direction,
ethertype, protocol, port range, remote group id, remote prefix), ignoring
the server-assigned id. -/
def ruleMatches (d : ResolvedSecurityGroupRuleSpec) (o : SecurityGroupRuleStatus) :
    Bool :=
  decide (d.description = o.description ∧ d.direction = o.direction ∧
    d.etherType = o.etherType ∧ d.protocol = o.protocol ∧
    d.portRangeMin = o.portRangeMin ∧ d.portRangeMax = o.portRangeMax ∧
    d.remoteGroupID = o.remoteGroupID ∧ d.remoteIPPref = o.remoteIPPref)

/-- The rule record returned by the remote system for a freshly created
rule: the desired fields plus the server-assigned id. -/
def statusOfRule (d : ResolvedSecurityGroupRuleSpec) (newId : String) :
    SecurityGroupRuleStatus :=
  { description := d.description
    direction := d.direction
    etherType := d.etherType
    protocol := d.protocol
    portRangeMin := d.portRangeMin
    portRangeMax := d.portRangeMax
    remoteGroupID := d.remoteGroupID
    remoteIPPref := d.remoteIPPref
    id := newId }

/-- Create every missing rule in desired order, capturing the server-assigned
ids (`genId i` is the id the remote system assigns to the i-th create). -/
def createRules (genId : Nat → String) :
    Nat → List ResolvedSecurityGroupRuleSpec → List SecurityGroupRuleStatus
  | _, [] => []
  | i, d :: t => statusOfRule d (genId i) :: createRules genId (i + 1) t

/-- The outcome of one reconciliation pass for one group: the new status
snapshot, the rules created and the ids deleted against the remote system. -/
structure ReconcileResult where
  status : SecurityGroupStatus
  created : List SecurityGroupRuleStatus
  deletedIds : List String
deriving DecidableEq

/-- Modelled from the spec: `reconcileGroupRules` — diff desired rules
against last-observed rules by value equality on comparable fields,
ignoring server-assigned ids: delete every stale observed rule by its id,
create every missing desired rule capturing the new server-assigned id, and
return kept rules (original position, unchanged ids) followed by newly
created rules (desired order, new ids); the group id/name pass through
unchanged. -/
def reconcileGroupRules (desired : SecurityGroupSpecD)
    (observed : SecurityGroupStatus) (genId : Nat → String) : ReconcileResult :=
  let kept := observed.rules.filter
    (fun o => desired.rules.any (fun d => ruleMatches d o))
  let stale := observed.rules.filter
    (fun o => !desired.rules.any (fun d => ruleMatches d o))
  let missing := desired.rules.filter
    (fun d => !observed.rules.any (fun o => ruleMatches d o))
  let created := createRules genId 0 missing
  { status := { id := observed.id, name := observed.name, rules := kept ++ created }
    created := created
    deletedIds := stale.map (fun o => o.id) }

/- ## Shared concrete objects used by witnesses and counterexamples -/

/-- A v1alpha7 machine spec with every field at its zero value. -/
def emptySpecA7 : OpenStackMachineSpecA7 :=
  { flavor := [], image := [], imageUUID := [], floatingIP := [], serverGroupID := []
    serverMetadata := [], cloudName := [], identityRef := none, ports := []
    securityGroups := [] }

/-- A v1beta1 machine spec with every field at its zero value. -/
def emptySpecB1 : OpenStackMachineSpecB1 :=
  { flavor := [], image := { id := none, name := none }, serverGroup := none
    serverMetadata := [], identityRef := none, floatingIPPoolRef := none, ports := []
    securityGroups := [] }

/- ## Claims -/

/-- C10: for every machine name n,
`GetOpenStackMachineNameFromClaimName (GetFloatingAddressClaimName n) = n` —
appending "-floating-ip-address" and then stripping that suffix recovers the
original machine name exactly, including when n itself already ends with the
suffix (`strings.TrimSuffix` removes a single trailing occurrence, which is
always the appended one). -/
theorem floating_claim_name_roundtrip (n : GoStr) :
    GetOpenStackMachineNameFromClaimName (GetFloatingAddressClaimName n) = n := by
  unfold GetOpenStackMachineNameFromClaimName GetFloatingAddressClaimName trimSuffix
  rw [if_pos ⟨n, rfl⟩]
  simp

/-- C9: when managed security groups are disabled for the target
(`ManagedSecurityGroups` is nil), the desired-state builder returns an empty
result — zero security-group rules across all groups — and no error, for any
baseline policy and any known-groups mapping. -/
theorem builder_disabled_noop
    (baseline : List (String × List ResolvedSecurityGroupRuleSpec))
    (cluster : OpenStackClusterSpecModel) (known : GroupsMap)
    (h : cluster.managedSecurityGroups = none) :
    generateDesiredSecGroups baseline cluster known = .ok [] := by
  unfold generateDesiredSecGroups
  rw [h]

/-- Witness for C9 at a concrete input: a cluster with nil managed security
groups and a nonempty baseline yields `.ok []`. -/
theorem builder_disabled_noop_witness :
    generateDesiredSecGroups [("controlplane", [])]
      { managedSecurityGroups := none } [("controlplane", "1")] = .ok [] :=
  builder_disabled_noop [("controlplane", [])]
    { managedSecurityGroups := none } [("controlplane", "1")] rfl

/-- C8: list-typed sub-objects are restored element-wise if and only if the
list length in `current` equals the length in `previous`; on any length
mismatch the whole-list restoration is skipped entirely (the list is left
exactly as converted, never restored for a prefix or partially). Stated for
the v1beta1 ports restore of `restorev1beta1MachineSpec` and the ports and
security-group-filter restores of `restorev1alpha7MachineSpec`. -/
theorem list_restore_length_guard :
    (∀ previous dst : OpenStackMachineSpecB1,
      (dst.ports.length = previous.ports.length →
        (restorev1beta1MachineSpec previous dst).ports =
          List.zipWith restorev1beta1Port previous.ports dst.ports) ∧
      (dst.ports.length ≠ previous.ports.length →
        (restorev1beta1MachineSpec previous dst).ports = dst.ports)) ∧
    (∀ previous dst : OpenStackMachineSpecA7,
      (dst.ports.length = previous.ports.length →
        (restorev1alpha7MachineSpec previous dst).ports =
          List.zipWith restorev1alpha7Port previous.ports dst.ports) ∧
      (dst.ports.length ≠ previous.ports.length →
        (restorev1alpha7MachineSpec previous dst).ports = dst.ports) ∧
      (dst.securityGroups.length = previous.securityGroups.length →
        (restorev1alpha7MachineSpec previous dst).securityGroups =
          List.zipWith restorev1alpha7SecurityGroupFilter previous.securityGroups
            dst.securityGroups) ∧
      (dst.securityGroups.length ≠ previous.securityGroups.length →
        (restorev1alpha7MachineSpec previous dst).securityGroups =
          dst.securityGroups)) := by
  refine ⟨fun previous dst => ⟨fun h => ?_, fun h => ?_⟩,
    fun previous dst => ⟨fun h => ?_, fun h => ?_, fun h => ?_, fun h => ?_⟩⟩ <;>
    simp only [restorev1beta1MachineSpec, restorev1alpha7MachineSpec] <;>
    simp [h]

/-- Witness for C8 at concrete inputs: with one previous port and no current
port the restoration is skipped (`ports` stays empty), and with matching
single-port lists the port is restored element-wise. -/
theorem list_restore_length_guard_witness :
    (restorev1beta1MachineSpec
        { emptySpecB1 with ports := [{ name := "p".data, profile := "prof".data }] }
        emptySpecB1).ports = emptySpecB1.ports ∧
    (restorev1beta1MachineSpec
        { emptySpecB1 with ports := [{ name := "p".data, profile := "prof".data }] }
        { emptySpecB1 with ports := [{ name := "p".data, profile := [] }] }).ports =
      List.zipWith restorev1beta1Port
        [{ name := "p".data, profile := "prof".data }]
        [{ name := "p".data, profile := [] }] :=
  ⟨(list_restore_length_guard.1
      { emptySpecB1 with ports := [{ name := "p".data, profile := "prof".data }] }
      emptySpecB1).2 (by decide),
   (list_restore_length_guard.1
      { emptySpecB1 with ports := [{ name := "p".data, profile := "prof".data }] }
      { emptySpecB1 with ports := [{ name := "p".data, profile := [] }] }).1 (by decide)⟩

/-- The downgrade-then-upgrade round trip of an unmodified v1beta1 machine
reduces to the up-conversion of the down-conversion with the spec restorer
applied (the stored hash necessarily matches) and the status sub-objects
copied forward unconditionally. -/
theorem roundTripB1_eq (m : OpenStackMachineB1) :
    roundTripB1 m =
      { spec :=
          restorev1beta1MachineSpec m.spec
            (Convert_v1alpha7_OpenStackMachineSpec_To_v1beta1_OpenStackMachineSpec
              (Convert_v1beta1_OpenStackMachineSpec_To_v1alpha7_OpenStackMachineSpec
                m.spec))
        dependentResources := m.dependentResources
        referencedResources := m.referencedResources } := by
  unfold roundTripB1 convertDownB1 convertUpA7
  simp

/-- Restoring a port list against the ports obtained by converting it down to
v1alpha7 and back up recovers the original list element-wise. -/
theorem zipWith_restore_ports_b1 (l : List PortB1) :
    List.zipWith restorev1beta1Port l
      (List.map convertPortA7ToB1 (List.map convertPortB1ToA7 l)) = l := by
  induction l with
  | nil => rfl
  | cons p t ih =>
    simp only [List.map_cons, List.zipWith_cons_cons, ih]
    rfl

/-- C1: for every v1beta1 machine O, converting it down to v1alpha7 and back
up with an unmodified intermediate restores every field unique to the
v1beta1 schema: the structured server-group filter, the structured image
filter, the floating-IP pool reference, the v1beta1-only port fields (the
whole port list round-trips), and the dependent/referenced status
resources. -/
theorem roundtrip_b1_lossless (m : OpenStackMachineB1) :
    (roundTripB1 m).spec.serverGroup = m.spec.serverGroup ∧
    (roundTripB1 m).spec.image = m.spec.image ∧
    (roundTripB1 m).spec.floatingIPPoolRef = m.spec.floatingIPPoolRef ∧
    (roundTripB1 m).spec.ports = m.spec.ports ∧
    (roundTripB1 m).dependentResources = m.dependentResources ∧
    (roundTripB1 m).referencedResources = m.referencedResources := by
  rw [roundTripB1_eq]
  refine ⟨rfl, rfl, rfl, ?_, rfl, rfl⟩
  show (restorev1beta1MachineSpec m.spec _).ports = m.spec.ports
  simp only [restorev1beta1MachineSpec,
    Convert_v1alpha7_OpenStackMachineSpec_To_v1beta1_OpenStackMachineSpec,
    Convert_v1beta1_OpenStackMachineSpec_To_v1alpha7_OpenStackMachineSpec]
  rw [if_pos (by simp)]
  exact zipWith_restore_ports_b1 m.spec.ports

/-- A v1beta1 machine carrying data unique to the v1beta1 schema, used to
exercise tamper detection. -/
def tamperB1 : OpenStackMachineB1 :=
  { spec :=
      { emptySpecB1 with
        serverGroup := some { id := "sg1".data, name := "sgname".data }
        floatingIPPoolRef := some "pool".data }
    dependentResources := "dep".data
    referencedResources := "ref".data }

/-- The down-converted v1alpha7 form of `tamperB1`, modified (flavor edited)
between the down- and up-conversion. -/
def tamperA7 : OpenStackMachineA7 :=
  { spec := { (convertDownB1 tamperB1).1.spec with flavor := "edited".data } }

/-- C4: the hashed "spec" restorer fires exactly when the guarded field
group of the lower-fidelity object still hashes to the hash stored in the
restore record — that is, when it is exactly what conversion would have
produced from `previous`; otherwise the converted spec is left untouched by
restoration. Concretely, editing the v1alpha7 object between down- and
up-conversion makes the round trip return the plain conversion of the edited
object: the edit survives, and neither the server-group name nor the
floating-IP pool reference cached in the record is merged forward. -/
theorem hashed_restorer_guard :
    (∀ (m : OpenStackMachineB1) (a : OpenStackMachineA7),
      (convertUpA7 a (some (convertDownB1 m).2)).spec =
        if a.spec = (convertDownB1 m).1.spec then
          restorev1beta1MachineSpec m.spec
            (Convert_v1alpha7_OpenStackMachineSpec_To_v1beta1_OpenStackMachineSpec
              a.spec)
        else
          Convert_v1alpha7_OpenStackMachineSpec_To_v1beta1_OpenStackMachineSpec
            a.spec) ∧
    (convertUpA7 tamperA7 (some (convertDownB1 tamperB1).2)).spec =
      Convert_v1alpha7_OpenStackMachineSpec_To_v1beta1_OpenStackMachineSpec
        tamperA7.spec ∧
    (convertUpA7 tamperA7 (some (convertDownB1 tamperB1).2)).spec.flavor =
      "edited".data ∧
    (convertUpA7 tamperA7 (some (convertDownB1 tamperB1).2)).spec.serverGroup =
      some { id := "sg1".data, name := [] } ∧
    (convertUpA7 tamperA7 (some (convertDownB1 tamperB1).2)).spec.floatingIPPoolRef =
      none := by
  refine ⟨fun m a => rfl, ?_, ?_, ?_, ?_⟩ <;> decide

/- ## Server-metadata truncation and restoration -/

theorem metaLookup_insert_self (m : MetaMap) (k v : GoStr) :
    metaLookup (metaInsert m k v) k = some v := by
  induction m with
  | nil => simp [metaInsert, metaLookup]
  | cons e t ih =>
    obtain ⟨k2, v2⟩ := e
    by_cases h : k2 = k
    · simp [metaInsert, h, metaLookup]
    · simp [metaInsert, h, metaLookup, ih]

theorem metaLookup_insert_ne (m : MetaMap) (k2 v2 k : GoStr) (h : k2 ≠ k) :
    metaLookup (metaInsert m k2 v2) k = metaLookup m k := by
  induction m with
  | nil => simp [metaInsert, metaLookup, h]
  | cons e t ih =>
    obtain ⟨k3, v3⟩ := e
    by_cases h3 : k3 = k2
    · simp [metaInsert, h3, metaLookup, h]
    · by_cases hk : k3 = k
      · simp [metaInsert, h3, metaLookup, hk, Ne.symm h]
      · simp [metaInsert, h3, metaLookup, hk, ih]

theorem metaLookup_erase_ne (m : MetaMap) (k2 k : GoStr) (h : k2 ≠ k) :
    metaLookup (metaErase m k2) k = metaLookup m k := by
  induction m with
  | nil => simp [metaErase]
  | cons e t ih =>
    obtain ⟨k3, v3⟩ := e
    by_cases h3 : k3 = k2
    · have hk : ¬k3 = k := by rw [h3]; exact h
      simp [metaErase, h3, metaLookup, hk, h]
    · by_cases hk : k3 = k
      · simp [metaErase, h3, metaLookup, hk, Ne.symm h]
      · simp [metaErase, h3, metaLookup, hk, ih]

/-- Truncation changes every string longer than 255 characters. -/
theorem truncate255_ne_of_long (s : GoStr) (h : 255 < s.length) :
    truncate255 s ≠ s := by
  unfold truncate255
  rw [if_pos h]
  intro heq
  have hl := congrArg List.length heq
  rw [List.length_take, Nat.min_eq_left (Nat.le_of_lt h)] at hl
  omega

/-- A restore-loop iteration for an unrelated entry (key and truncated key
both different from k) does not change what k maps to. -/
theorem restoreMetadataStep_preserve (acc : MetaMap) (e : GoStr × GoStr)
    (k : GoStr) (h1 : e.1 ≠ k) (h2 : truncate255 e.1 ≠ k) :
    metaLookup (restoreMetadataStep acc e) k = metaLookup acc k := by
  show metaLookup
      (if truncate255 e.1 ≠ e.1 ∨ truncate255 e.2 ≠ e.2 then
        metaInsert (metaErase acc (truncate255 e.1)) e.1 e.2
      else acc) k = metaLookup acc k
  split
  · rw [metaLookup_insert_ne _ _ _ _ h1, metaLookup_erase_ne _ _ _ h2]
  · rfl

/-- A run of restore-loop iterations over entries unrelated to k preserves
what k maps to. -/
theorem restoreMetadata_foldl_preserve (t : List (GoStr × GoStr))
    (acc : MetaMap) (k v : GoStr) (hacc : metaLookup acc k = some v)
    (ht : ∀ e ∈ t, e.1 ≠ k ∧ truncate255 e.1 ≠ k) :
    metaLookup (List.foldl restoreMetadataStep acc t) k = some v := by
  induction t generalizing acc with
  | nil => exact hacc
  | cons e t ih =>
    rw [List.foldl_cons]
    refine ih _ ?_ (fun x hx => ht x (List.mem_cons_of_mem _ hx))
    rw [restoreMetadataStep_preserve acc e k (ht e (List.mem_cons_self _ _)).1
      (ht e (List.mem_cons_self _ _)).2]
    exact hacc

/-- The restore-loop iteration for an entry that was truncated deletes the
truncated key and writes the original pair back. -/
theorem restoreMetadataStep_self (acc : MetaMap) (k v : GoStr)
    (h : truncate255 k ≠ k ∨ truncate255 v ≠ v) :
    metaLookup (restoreMetadataStep acc (k, v)) k = some v := by
  show metaLookup
      (if truncate255 k ≠ k ∨ truncate255 v ≠ v then
        metaInsert (metaErase acc (truncate255 k)) k v
      else acc) k = some v
  rw [if_pos h]
  exact metaLookup_insert_self _ _ _

/-- The server-metadata restore loop restores every truncated entry whose
key no other key of the mapping truncates onto. -/
theorem restoreMetadata_restores (prev : MetaMap) (dstm : MetaMap)
    (k v : GoStr) (hmem : (k, v) ∈ prev)
    (hlong : 255 < k.length ∨ 255 < v.length)
    (hcol : ∀ e ∈ prev, e.1 ≠ k → truncate255 e.1 ≠ k)
    (hnd : (prev.map Prod.fst).Nodup) :
    metaLookup (restoreMetadata prev dstm) k = some v := by
  induction prev generalizing dstm with
  | nil => cases hmem
  | cons e t ih =>
    rw [List.map_cons, List.nodup_cons] at hnd
    by_cases hek : e.1 = k
    · have he : e = (k, v) := by
        rcases List.mem_cons.mp hmem with h | h
        · exact h.symm
        · exact absurd (List.mem_map_of_mem Prod.fst h) (hek ▸ hnd.1)
      subst he
      rw [restoreMetadata, List.foldl_cons]
      refine restoreMetadata_foldl_preserve t _ k v
        (restoreMetadataStep_self dstm k v ?_) (fun x hx => ?_)
      · rcases hlong with h | h
        · exact Or.inl (truncate255_ne_of_long k h)
        · exact Or.inr (truncate255_ne_of_long v h)
      · have hxm : x.1 ∈ t.map Prod.fst := List.mem_map_of_mem Prod.fst hx
        have hxk : x.1 ≠ k := fun hx1 => hnd.1 (hx1 ▸ hxm)
        exact ⟨hxk, hcol x (List.mem_cons_of_mem _ hx) hxk⟩
    · have hmem2 : (k, v) ∈ t := by
        rcases List.mem_cons.mp hmem with h | h
        · exact absurd (congrArg Prod.fst h.symm) hek
        · exact h
      rw [restoreMetadata, List.foldl_cons]
      exact ih _ hmem2 (fun x hx hne => hcol x (List.mem_cons_of_mem _ hx) hne)
        hnd.2

/-- The v1alpha7 → v1beta1 → v1alpha7 round trip with an unmodified v1beta1
intermediate reduces to the down-conversion of the up-conversion with the
spec restorer applied (the stored hash necessarily matches). -/
theorem roundTripA7_eq (m : OpenStackMachineA7) :
    roundTripA7 m =
      { spec :=
          restorev1alpha7MachineSpec m.spec
            (Convert_v1beta1_OpenStackMachineSpec_To_v1alpha7_OpenStackMachineSpec
              (Convert_v1alpha7_OpenStackMachineSpec_To_v1beta1_OpenStackMachineSpec
                m.spec)) } := by
  unfold roundTripA7 convertUpStoreA7 convertDownRestoreB1
  simp

/-- A 255-character key, the 256-character key that truncates onto it, and a
256-character value, used to exhibit a truncation collision. -/
def key255 : GoStr := List.replicate 255 'a'

def key256 : GoStr := List.replicate 256 'a'

def value256 : GoStr := List.replicate 256 'b'

/-- A v1alpha7 machine whose server metadata holds an over-long value under
`key255` next to an entry whose over-long key truncates onto `key255`. -/
def collisionMachine : OpenStackMachineA7 :=
  { spec :=
      { emptySpecA7 with
        serverMetadata := [(key255, value256), (key256, "c".data)] } }

/-- A v1alpha7 machine whose server metadata is a single entry with an
over-long key. -/
def longKeyMachine : OpenStackMachineA7 :=
  { spec := { emptySpecA7 with serverMetadata := [(key256, "c".data)] } }

/-- C3 (counterexample): the unmodified round trip does not always restore
an entry with an over-long value. In `collisionMachine` the entry
`(key255, value256)` has a value longer than 255 characters, the v1beta1
intermediate is not modified, yet after the round trip `key255` is bound to
nothing at all — the truncation of `key256` collides with `key255`, so the
restore loop for the second entry deletes the freshly restored first
entry. -/
theorem metadata_truncation_restore_cex :
    (255 < value256.length ∧
      (key255, value256) ∈ collisionMachine.spec.serverMetadata) ∧
    metaLookup (roundTripA7 collisionMachine).spec.serverMetadata key255 =
      none := by
  decide

/-- C3 (amended): on conversion to v1beta1 every server-metadata key and
value longer than 255 characters is truncated to exactly its first 255
characters; a subsequent conversion back of the unmodified object restores
the untruncated original key and value via the restore record — rather than
keeping the truncated copy — provided no other key of the mapping truncates
onto the key of the entry. Concretely, a single-entry mapping with an over-long
key round-trips to exactly the original entry, the truncated copy gone. -/
theorem metadata_truncation_restore :
    (∀ a : OpenStackMachineSpecA7,
      (Convert_v1alpha7_OpenStackMachineSpec_To_v1beta1_OpenStackMachineSpec
          a).serverMetadata =
        a.serverMetadata.map (fun e => (truncate255 e.1, truncate255 e.2))) ∧
    (∀ s : GoStr, 255 < s.length →
      truncate255 s = s.take 255 ∧ (truncate255 s).length = 255) ∧
    (∀ (m : OpenStackMachineA7) (k v : GoStr),
      (k, v) ∈ m.spec.serverMetadata →
      255 < k.length ∨ 255 < v.length →
      (∀ e ∈ m.spec.serverMetadata, e.1 ≠ k → truncate255 e.1 ≠ k) →
      (m.spec.serverMetadata.map Prod.fst).Nodup →
      metaLookup (roundTripA7 m).spec.serverMetadata k = some v) ∧
    (roundTripA7 longKeyMachine).spec.serverMetadata = [(key256, "c".data)] := by
  refine ⟨fun a => ?_, fun s hs => ?_, fun m k v hmem hlong hcol hnd => ?_, ?_⟩
  · show (if a.serverMetadata.isEmpty then [] else _) = _
    cases a.serverMetadata with
    | nil => rfl
    | cons e t => rfl
  · constructor
    · unfold truncate255
      rw [if_pos hs]
    · unfold truncate255
      rw [if_pos hs, List.length_take, Nat.min_eq_left (Nat.le_of_lt hs)]
  · rw [roundTripA7_eq]
    exact restoreMetadata_restores m.spec.serverMetadata _ k v hmem hlong hcol hnd
  · decide

/-- Witness for C3 (amended) at a concrete input: the single long-key entry
of `longKeyMachine` satisfies every hypothesis, so the round trip maps
`key256` back to its original value. -/
theorem metadata_truncation_restore_witness :
    metaLookup (roundTripA7 longKeyMachine).spec.serverMetadata key256 =
      some "c".data :=
  metadata_truncation_restore.2.2.1 longKeyMachine key256 "c".data
    (by decide) (by decide) (by decide) (by decide)

/- ## Resolver claims -/

/-- C6: group reference resolution fails, surfacing the offending name as
the error value, exactly when some requested symbolic name is absent from
the known name→ID mapping, or the optional role "bastion" is present in the
mapping but referenced by no rule of the all-nodes rule set; in particular,
when the mapping lacks "bastion", rules that simply omit it resolve without
error. -/
theorem getAllNodesRules_of_unknown (known : GroupsMap)
    (rules : List SecurityGroupRuleSpec) (n : String)
    (hf : firstUnknownGroup known rules = some n) :
    getAllNodesRules known rules = .error n := by
  unfold getAllNodesRules
  rw [hf]

theorem getAllNodesRules_of_known (known : GroupsMap)
    (rules : List SecurityGroupRuleSpec)
    (hf : firstUnknownGroup known rules = none) :
    getAllNodesRules known rules =
      if (lookupGroup known "bastion").isSome ∧ ¬bastionWired rules then
        .error "bastion"
      else
        .ok (rules.flatMap (fun r =>
          r.remoteManagedGroups.map (fun n =>
            resolveRule r ((lookupGroup known n).getD "")))) := by
  unfold getAllNodesRules
  rw [hf]

theorem resolver_validation_errors :
    (∀ (known : GroupsMap) (rules : List SecurityGroupRuleSpec),
      (∃ e, getAllNodesRules known rules = .error e) ↔
        ((∃ r ∈ rules, ∃ n ∈ r.remoteManagedGroups, lookupGroup known n = none) ∨
          ((lookupGroup known "bastion").isSome ∧
            ∀ r ∈ rules, "bastion" ∉ r.remoteManagedGroups))) ∧
    (∀ (known : GroupsMap) (rules : List SecurityGroupRuleSpec) (e : String),
      getAllNodesRules known rules = .error e →
        e = "bastion" ∨
          ∃ r ∈ rules, e ∈ r.remoteManagedGroups ∧ lookupGroup known e = none) := by
  constructor
  · intro known rules
    cases hf : firstUnknownGroup known rules with
    | some n =>
      have hmem := List.mem_of_find?_eq_some hf
      have hp := List.find?_some hf
      rw [List.mem_flatMap] at hmem
      obtain ⟨r, hr, hn⟩ := hmem
      exact ⟨fun _ => Or.inl ⟨r, hr, n, hn, Option.isNone_iff_eq_none.mp hp⟩,
        fun _ => ⟨n, getAllNodesRules_of_unknown known rules n hf⟩⟩
    | none =>
      have hall := List.find?_eq_none.mp hf
      rw [getAllNodesRules_of_known known rules hf]
      by_cases h : (lookupGroup known "bastion").isSome ∧ ¬bastionWired rules
      · rw [if_pos h]
        refine ⟨fun _ => Or.inr ⟨h.1, fun r hr hb => h.2 ?_⟩,
          fun _ => ⟨"bastion", rfl⟩⟩
        simp only [bastionWired, List.any_eq_true]
        exact ⟨r, hr, by simpa using hb⟩
      · rw [if_neg h]
        constructor
        · rintro ⟨e, he⟩
          cases he
        · rintro (⟨r, hr, n, hn, hnone⟩ | ⟨hb, hw⟩)
          · refine absurd ?_ (hall n (List.mem_flatMap.mpr ⟨r, hr, hn⟩))
            simp [hnone]
          · refine absurd ⟨hb, fun hwired => ?_⟩ h
            simp only [bastionWired, List.any_eq_true] at hwired
            obtain ⟨r, hr, hbr⟩ := hwired
            exact hw r hr (by simpa using hbr)
  · intro known rules e he
    cases hf : firstUnknownGroup known rules with
    | some n =>
      rw [getAllNodesRules_of_unknown known rules n hf] at he
      injection he with hne
      have hmem := List.mem_of_find?_eq_some hf
      have hp := List.find?_some hf
      rw [List.mem_flatMap] at hmem
      obtain ⟨r, hr, hn⟩ := hmem
      exact Or.inr ⟨r, hr, hne ▸ hn, hne ▸ Option.isNone_iff_eq_none.mp hp⟩
    | none =>
      rw [getAllNodesRules_of_known known rules hf] at he
      by_cases h : (lookupGroup known "bastion").isSome ∧ ¬bastionWired rules
      · rw [if_pos h] at he
        injection he with hne
        exact Or.inl hne.symm
      · rw [if_neg h] at he
        cases he

/-- Witness for C6 at a concrete input: a rule requesting an unknown group
name makes the resolver fail with exactly that name. -/
theorem resolver_validation_errors_witness :
    ("unknownGroup" : String) = "bastion" ∨
      ∃ r ∈ [{ description := "", direction := "", etherType := ""
               protocol := "tcp", portRangeMin := 22, portRangeMax := 22
               remoteManagedGroups :=
                 ["unknownGroup"] : SecurityGroupRuleSpec }],
        "unknownGroup" ∈ r.remoteManagedGroups ∧
          lookupGroup [("controlplane", "1")] "unknownGroup" = none :=
  resolver_validation_errors.2 [("controlplane", "1")]
    [{ description := "", direction := "", etherType := "", protocol := "tcp"
       portRangeMin := 22, portRangeMax := 22
       remoteManagedGroups := ["unknownGroup"] }] "unknownGroup" rfl

/-- The all-nodes rule of the `TestGetAllNodesRules` fixtures: tcp port 22
addressed to the controlplane and worker role groups. -/
def sshAllNodesRule : SecurityGroupRuleSpec :=
  { description := "", direction := "", etherType := "", protocol := "tcp"
    portRangeMin := 22, portRangeMax := 22
    remoteManagedGroups := ["controlplane", "worker"] }

/-- A rule that references the same role twice, to exercise duplicate
fan-out. -/
def duplicateGroupsRule : SecurityGroupRuleSpec :=
  { sshAllNodesRule with
    remoteManagedGroups := ["controlplane", "controlplane"] }

/-- C7: on success the resolver returns exactly one resolved rule per
requested symbolic name in request-list order with every other field copied
verbatim; duplicates in the request fan out to duplicates in the output.
Concretely, listing the known mapping in the order worker-then-controlplane
still yields the IDs in request order (1 then 2), and a duplicated request
yields the ID twice. -/
theorem resolver_order_fanout :
    (∀ (known : GroupsMap) (r : SecurityGroupRuleSpec)
        (out : List ResolvedSecurityGroupRuleSpec),
      getAllNodesRules known [r] = .ok out →
        out = r.remoteManagedGroups.map
          (fun n => resolveRule r ((lookupGroup known n).getD ""))) ∧
    getAllNodesRules [("worker", "2"), ("controlplane", "1")] [sshAllNodesRule] =
      .ok [resolveRule sshAllNodesRule "1", resolveRule sshAllNodesRule "2"] ∧
    getAllNodesRules [("controlplane", "1")] [duplicateGroupsRule] =
      .ok [resolveRule duplicateGroupsRule "1",
        resolveRule duplicateGroupsRule "1"] := by
  refine ⟨fun known r out h => ?_, rfl, rfl⟩
  cases hf : firstUnknownGroup known [r] with
  | some n => rw [getAllNodesRules_of_unknown known [r] n hf] at h; cases h
  | none =>
    rw [getAllNodesRules_of_known known [r] hf] at h
    by_cases hb : (lookupGroup known "bastion").isSome ∧ ¬bastionWired [r]
    · rw [if_pos hb] at h
      cases h
    · rw [if_neg hb] at h
      injection h with hout
      rw [← hout]
      simp

/-- Witness for C7 at a concrete input: the duplicated request resolves to
the request-order fan-out. -/
theorem resolver_order_fanout_witness :
    [resolveRule duplicateGroupsRule "1", resolveRule duplicateGroupsRule "1"] =
      duplicateGroupsRule.remoteManagedGroups.map
        (fun n => resolveRule duplicateGroupsRule
          ((lookupGroup [("controlplane", "1")] n).getD "")) :=
  resolver_order_fanout.1 [("controlplane", "1")] duplicateGroupsRule
    [resolveRule duplicateGroupsRule "1", resolveRule duplicateGroupsRule "1"]
    rfl

/- ## Reconciler claims -/

/-- Unfolding of `reconcileGroupRules` into its partition of observed and
desired rules. -/
theorem reconcileGroupRules_def (desired : SecurityGroupSpecD)
    (observed : SecurityGroupStatus) (genId : Nat → String) :
    reconcileGroupRules desired observed genId =
      { status :=
          { id := observed.id
            name := observed.name
            rules :=
              observed.rules.filter
                (fun o => desired.rules.any (fun d => ruleMatches d o)) ++
              createRules genId 0 (desired.rules.filter
                (fun d => !observed.rules.any (fun o => ruleMatches d o))) }
        created := createRules genId 0 (desired.rules.filter
          (fun d => !observed.rules.any (fun o => ruleMatches d o)))
        deletedIds :=
          (observed.rules.filter
            (fun o => !desired.rules.any (fun d => ruleMatches d o))).map
              (fun o => o.id) } :=
  rfl

/-- A freshly created rule record matches the desired rule it was created
from. -/
theorem ruleMatches_statusOfRule (d : ResolvedSecurityGroupRuleSpec)
    (x : String) : ruleMatches d (statusOfRule d x) = true := by
  simp [ruleMatches, statusOfRule]

/-- Every desired rule passed to `createRules` yields a member of the
result. -/
theorem mem_createRules_of_mem (genId : Nat → String)
    (l : List ResolvedSecurityGroupRuleSpec) (d : ResolvedSecurityGroupRuleSpec)
    (hd : d ∈ l) : ∀ i, ∃ j, statusOfRule d (genId j) ∈ createRules genId i l := by
  induction l with
  | nil => cases hd
  | cons e t ih =>
    intro i
    rcases List.mem_cons.mp hd with h | h
    · refine ⟨i, ?_⟩
      simp only [createRules, h]
      exact List.mem_cons_self _ _
    · obtain ⟨j, hj⟩ := ih h (i + 1)
      exact ⟨j, by simp only [createRules]; exact List.mem_cons_of_mem _ hj⟩

/-- Every member of a `createRules` result is the record of some desired
rule passed to it. -/
theorem mem_createRules (genId : Nat → String)
    (l : List ResolvedSecurityGroupRuleSpec) (s : SecurityGroupRuleStatus) :
    ∀ i, s ∈ createRules genId i l →
      ∃ d ∈ l, ∃ j, s = statusOfRule d (genId j) := by
  induction l with
  | nil => intro i h; cases h
  | cons e t ih =>
    intro i h
    simp only [createRules] at h
    rcases List.mem_cons.mp h with h2 | h2
    · exact ⟨e, List.mem_cons_self _ _, i, h2⟩
    · obtain ⟨d, hd, j, hj⟩ := ih (i + 1) h2
      exact ⟨d, List.mem_cons_of_mem _ hd, j, hj⟩

/-- Every rule in the status returned by a reconciliation pass is matched by
some desired rule (kept rules by the rule that kept them, created rules by
the rule they were created from). -/
theorem reconcile_result_matched (desired : SecurityGroupSpecD)
    (observed : SecurityGroupStatus) (genId : Nat → String) :
    ∀ o ∈ (reconcileGroupRules desired observed genId).status.rules,
      desired.rules.any (fun d => ruleMatches d o) = true := by
  rw [reconcileGroupRules_def]
  intro o ho
  rcases List.mem_append.mp ho with h | h
  · exact (List.mem_filter.mp h).2
  · obtain ⟨d, hd, j, hj⟩ := mem_createRules genId _ o 0 h
    refine List.any_eq_true.mpr ⟨d, List.mem_of_mem_filter hd, ?_⟩
    rw [hj]
    exact ruleMatches_statusOfRule d _

/-- Every desired rule is matched by some rule in the status returned by a
reconciliation pass (either an observed rule that was kept, or the record
created for it). -/
theorem reconcile_result_covers (desired : SecurityGroupSpecD)
    (observed : SecurityGroupStatus) (genId : Nat → String) :
    ∀ d ∈ desired.rules,
      (reconcileGroupRules desired observed genId).status.rules.any
        (fun o => ruleMatches d o) = true := by
  rw [reconcileGroupRules_def]
  intro d hd
  by_cases h : observed.rules.any (fun o => ruleMatches d o) = true
  · obtain ⟨o, ho, hmo⟩ := List.any_eq_true.mp h
    refine List.any_eq_true.mpr ⟨o, List.mem_append_left _
      (List.mem_filter.mpr ⟨ho, List.any_eq_true.mpr ⟨d, hd, hmo⟩⟩), hmo⟩
  · have hmiss : d ∈ desired.rules.filter
        (fun d => !observed.rules.any (fun o => ruleMatches d o)) :=
      List.mem_filter.mpr ⟨hd, by simp [h]⟩
    obtain ⟨j, hj⟩ := mem_createRules_of_mem genId _ d hmiss 0
    exact List.any_eq_true.mpr ⟨statusOfRule d (genId j),
      List.mem_append_right _ hj, ruleMatches_statusOfRule d _⟩

/-- C2: the reconciler is idempotent — feeding the status returned by one
pass back as the observed state of a second pass with the same desired spec
performs zero creates and zero deletes against the remote system and
returns the same status, for any desired spec, any observed status and any
server-side id assignments. -/
theorem reconcile_idempotent (desired : SecurityGroupSpecD)
    (observed : SecurityGroupStatus) (genId genId2 : Nat → String) :
    (reconcileGroupRules desired
        (reconcileGroupRules desired observed genId).status genId2).created =
      [] ∧
    (reconcileGroupRules desired
        (reconcileGroupRules desired observed genId).status genId2).deletedIds =
      [] ∧
    (reconcileGroupRules desired
        (reconcileGroupRules desired observed genId).status genId2).status =
      (reconcileGroupRules desired observed genId).status := by
  have hmissing : desired.rules.filter
      (fun d => !(reconcileGroupRules desired observed genId).status.rules.any
        (fun o => ruleMatches d o)) = [] :=
    List.filter_eq_nil_iff.mpr (fun d hd => by
      simp [reconcile_result_covers desired observed genId d hd])
  have hstale : (reconcileGroupRules desired observed genId).status.rules.filter
      (fun o => !desired.rules.any (fun d => ruleMatches d o)) = [] :=
    List.filter_eq_nil_iff.mpr (fun o ho => by
      simp [reconcile_result_matched desired observed genId o ho])
  have hkept : (reconcileGroupRules desired observed genId).status.rules.filter
      (fun o => desired.rules.any (fun d => ruleMatches d o)) =
      (reconcileGroupRules desired observed genId).status.rules :=
    List.filter_eq_self.mpr (reconcile_result_matched desired observed genId)
  refine ⟨?_, ?_, ?_⟩
  · rw [reconcileGroupRules_def desired
      (reconcileGroupRules desired observed genId).status genId2]
    show createRules genId2 0 _ = []
    rw [hmissing]
    rfl
  · rw [reconcileGroupRules_def desired
      (reconcileGroupRules desired observed genId).status genId2]
    show (List.filter _ _).map _ = []
    rw [hstale]
    rfl
  · rw [reconcileGroupRules_def desired
      (reconcileGroupRules desired observed genId).status genId2]
    show ({ id := _, name := _, rules := _ } : SecurityGroupStatus) = _
    rw [hmissing, hkept]
    simp [createRules]

/-- The resolved SSH rule of the `TestReconcileGroupRules` fixtures. -/
def ruleSSH : ResolvedSecurityGroupRuleSpec :=
  { description := "Allow SSH", direction := "ingress", etherType := "IPv4"
    protocol := "tcp", portRangeMin := 22, portRangeMax := 22
    remoteGroupID := "1", remoteIPPref := "" }

/-- A second desired rule, not present in the observed state. -/
def ruleHTTP : ResolvedSecurityGroupRuleSpec :=
  { ruleSSH with
      description := "Allow HTTP"
      portRangeMin := 80
      portRangeMax := 80 }

/-- The stale observed rule of the `TestReconcileGroupRules` fixtures:
port 222, server-assigned id "idSGRuleLegacy". -/
def ruleLegacyStatus : SecurityGroupRuleStatus :=
  { description := "Allow SSH legacy", direction := "ingress"
    etherType := "IPv4", protocol := "tcp", portRangeMin := 222
    portRangeMax := 222, remoteGroupID := "2", remoteIPPref := ""
    id := "idSGRuleLegacy" }

/-- C5: reconciliation performs exactly the set-difference operations and
preserves server-assigned ids. In general, every observed rule matched by an
equal desired rule is kept in the result with its id untouched. Concretely:
observed = one SSH rule with id "x", desired = SSH plus HTTP → exactly one
create (the HTTP rule, with the new server-assigned id), zero deletes, and
the SSH rule keeps id "x"; and in the stale-rule scenario — observed one
port-222 rule with id "idSGRuleLegacy", desired one port-22 rule —
reconciliation performs exactly one delete ("idSGRuleLegacy") and one
create, and the final status holds only the newly created rule with its new
id and the desired fields. -/
theorem reconcile_minimal :
    (∀ (desired : SecurityGroupSpecD) (observed : SecurityGroupStatus)
        (genId : Nat → String), ∀ o ∈ observed.rules,
      (∃ d ∈ desired.rules, ruleMatches d o = true) →
        o ∈ (reconcileGroupRules desired observed genId).status.rules) ∧
    reconcileGroupRules
        { name := "secgroup", rules := [ruleSSH, ruleHTTP] }
        { id := "idSG", name := "secgroup"
          rules := [statusOfRule ruleSSH "x"] }
        (fun _ => "idNew") =
      { status :=
          { id := "idSG", name := "secgroup"
            rules := [statusOfRule ruleSSH "x", statusOfRule ruleHTTP "idNew"] }
        created := [statusOfRule ruleHTTP "idNew"]
        deletedIds := [] } ∧
    reconcileGroupRules
        { name := "secgroup", rules := [ruleSSH] }
        { id := "idSG", name := "secgroup", rules := [ruleLegacyStatus] }
        (fun _ => "idSGRule") =
      { status :=
          { id := "idSG", name := "secgroup"
            rules := [statusOfRule ruleSSH "idSGRule"] }
        created := [statusOfRule ruleSSH "idSGRule"]
        deletedIds := ["idSGRuleLegacy"] } := by
  refine ⟨fun desired observed genId o ho hd => ?_, by decide, by decide⟩
  rw [reconcileGroupRules_def]
  obtain ⟨d, hdm, hmo⟩ := hd
  exact List.mem_append_left _
    (List.mem_filter.mpr ⟨ho, List.any_eq_true.mpr ⟨d, hdm, hmo⟩⟩)

/-- Witness for C5 at a concrete input: the kept SSH rule survives the pass
with its server-assigned id "x" untouched. -/
theorem reconcile_minimal_witness :
    statusOfRule ruleSSH "x" ∈
      (reconcileGroupRules
        { name := "secgroup", rules := [ruleSSH, ruleHTTP] }
        { id := "idSG", name := "secgroup"
          rules := [statusOfRule ruleSSH "x"] }
        (fun _ => "idNew")).status.rules :=
  reconcile_minimal.1
    { name := "secgroup", rules := [ruleSSH, ruleHTTP] }
    { id := "idSG", name := "secgroup", rules := [statusOfRule ruleSSH "x"] }
    (fun _ => "idNew") (statusOfRule ruleSSH "x") (by decide)
    ⟨ruleSSH, by decide, by decide⟩
